import Mathlib

/-!
# Contact-form validation of `src/app.js` (class `WebsiteApp`)

A shallow embedding of the form-validation and simulated-submission code of
`src/app.js`, followed by theorems about it.

JavaScript strings are sequences of UTF-16 code units; `length`, `trim`, `===`
and the regular expressions (no `u` flag) all work on code units, so a string
is modelled as the list of its code units.
-/

namespace WebsiteApp

/-! ## Strings -/

/-- A JavaScript string: the list of its UTF-16 code units. -/
abbrev JSString := List Nat

/-- UTF-16 encoding of one Unicode scalar value. -/
def utf16 (c : Char) : List Nat :=
  if c.toNat < 0x10000 then [c.toNat]
  else [0xD800 + (c.toNat - 0x10000) / 0x400, 0xDC00 + (c.toNat - 0x10000) % 0x400]

/-- The JavaScript string denoted by a string literal of the source. -/
def js (s : String) : JSString := s.toList.flatMap utf16

/-- ECMAScript `WhiteSpace` and `LineTerminator` code units: the set stripped by
`String.prototype.trim` and matched by the regular-expression class `\s`. -/
def isWhiteSpace (c : Nat) : Bool :=
  c == 0x09 || c == 0x0A || c == 0x0B || c == 0x0C || c == 0x0D || c == 0x20 ||
  c == 0xA0 || c == 0x1680 || (0x2000 ≤ c && c ≤ 0x200A) ||
  c == 0x2028 || c == 0x2029 || c == 0x202F || c == 0x205F || c == 0x3000 || c == 0xFEFF

/-- `String.prototype.trim`: strips white space from both ends. -/
def trim (s : JSString) : JSString :=
  ((s.dropWhile isWhiteSpace).reverse.dropWhile isWhiteSpace).reverse

/-! ## Regular expressions

The two patterns of the source use character classes, concatenation, `?`, `+`
and `{10,}` only.  Both are anchored with `^` and `$` and carry no flags, so
`RegExp.prototype.test` answers whether the whole string belongs to the
language of the pattern; `RegExp.test` decides that with Brzozowski
derivatives. -/

/-- Abstract syntax of the regular expressions used by the source. -/
inductive RegExp where
  | never : RegExp
  | empty : RegExp
  | cls : (Nat → Bool) → RegExp
  | alt : RegExp → RegExp → RegExp
  | seq : RegExp → RegExp → RegExp
  | star : RegExp → RegExp

namespace RegExp

/-- The quantifier `?`. -/
def opt (r : RegExp) : RegExp := alt empty r

/-- The quantifier `+`. -/
def plus (r : RegExp) : RegExp := seq r (star r)

/-- The quantifier `{n,}`. -/
def atLeast : Nat → RegExp → RegExp
  | 0, r => star r
  | n + 1, r => seq r (atLeast n r)

/-- Does the expression accept the empty string? -/
def nullable : RegExp → Bool
  | never => false
  | empty => true
  | cls _ => false
  | alt r s => nullable r || nullable s
  | seq r s => nullable r && nullable s
  | star _ => true

/-- Brzozowski derivative with respect to one code unit. -/
def deriv : RegExp → Nat → RegExp
  | never, _ => never
  | empty, _ => never
  | cls p, c => if p c then empty else never
  | alt r s, c => alt (deriv r c) (deriv s c)
  | seq r s, c =>
      if nullable r then alt (seq (deriv r c) s) (deriv s c) else seq (deriv r c) s
  | star r, c => seq (deriv r c) (star r)

/-- Whole-string match, as `test` does for a pattern anchored at both ends. -/
def test : RegExp → JSString → Bool
  | r, [] => nullable r
  | r, c :: s => test (deriv r c) s

/-- Language of a regular expression. -/
inductive Matches : RegExp → JSString → Prop
  | empty : Matches empty []
  | cls (p : Nat → Bool) (c : Nat) : p c = true → Matches (cls p) [c]
  | altL (r s : RegExp) (x : JSString) : Matches r x → Matches (alt r s) x
  | altR (r s : RegExp) (x : JSString) : Matches s x → Matches (alt r s) x
  | seq (r s : RegExp) (x y : JSString) : Matches r x → Matches s y → Matches (seq r s) (x ++ y)
  | starNil (r : RegExp) : Matches (star r) []
  | starCons (r : RegExp) (x y : JSString) :
      Matches r x → Matches (star r) y → Matches (star r) (x ++ y)

end RegExp

/-- The class `[^\s@]`. -/
def notSpaceOrAt (c : Nat) : Bool := !(isWhiteSpace c || c == 0x40)

/-- The class `[\+]`. -/
def isPlusSign (c : Nat) : Bool := c == 0x2B

/-- The class `[0-9\s\-\(\)]`. -/
def isPhoneChar (c : Nat) : Bool :=
  (0x30 ≤ c && c ≤ 0x39) || isWhiteSpace c || c == 0x2D || c == 0x28 || c == 0x29

/-- The pattern `/^[^\s@]+@[^\s@]+\.[^\s@]+$/`. -/
def emailRegex : RegExp :=
  .seq (.plus (.cls notSpaceOrAt))
    (.seq (.cls (· == 0x40))
      (.seq (.plus (.cls notSpaceOrAt))
        (.seq (.cls (· == 0x2E)) (.plus (.cls notSpaceOrAt)))))

/-- The pattern `/^[\+]?[0-9\s\-\(\)]{10,}$/`. -/
def phoneRegex : RegExp :=
  .seq (.opt (.cls isPlusSign)) (.atLeast 10 (.cls isPhoneChar))

/-- Method `isValidEmail`. -/
def isValidEmail (email : JSString) : Bool := emailRegex.test email

/-- Method `isValidPhone`. -/
def isValidPhone (phone : JSString) : Bool := phoneRegex.test phone

/-! ## Property reads on the `labels` object literal -/

/-- Results a property read on the object literal `labels` can produce. -/
inductive Value where
  | undefined : Value
  | string : JSString → Value
  | objectPrototype : Value
  | builtinFunction : JSString → Value
  deriving DecidableEq

namespace Value

/-- ECMAScript `ToBoolean`, which decides the operator `||`. -/
def toBoolean : Value → Bool
  | undefined => false
  | string s => !s.isEmpty
  | objectPrototype => true
  | builtinFunction _ => true

/-- ECMAScript `ToString`, applied by a template literal.  For `Object.prototype`
it is the result of `Object.prototype.toString`; for a built-in function it is
the source text printed by V8 and JavaScriptCore (the standard fixes the
shape `function name(...) { [native code] }` only). -/
def toJSString : Value → JSString
  | undefined => js "undefined"
  | string s => s
  | objectPrototype => js "[object Object]"
  | builtinFunction n => js "function " ++ n ++ js "() \x7b [native code] \x7d"

end Value

/-- Own properties of the object literal `labels` in `getFieldLabel`. -/
def labels : List (JSString × JSString) :=
  [(js "name", js "Full Name"),
   (js "email", js "Email Address"),
   (js "phone", js "Phone Number"),
   (js "service", js "Service Type"),
   (js "message", js "Project Details")]

/-- Function-valued properties of `Object.prototype`, each with the name of the
function it holds. -/
def objectPrototypeMethods : List (JSString × JSString) :=
  [(js "constructor", js "Object"),
   (js "hasOwnProperty", js "hasOwnProperty"),
   (js "isPrototypeOf", js "isPrototypeOf"),
   (js "propertyIsEnumerable", js "propertyIsEnumerable"),
   (js "toLocaleString", js "toLocaleString"),
   (js "toString", js "toString"),
   (js "valueOf", js "valueOf"),
   (js "__defineGetter__", js "__defineGetter__"),
   (js "__defineSetter__", js "__defineSetter__"),
   (js "__lookupGetter__", js "__lookupGetter__"),
   (js "__lookupSetter__", js "__lookupSetter__")]

/-- The read `labels[fieldName]`: an own property if there is one, otherwise the
property inherited from `Object.prototype`, the prototype of every object
literal (the accessor `__proto__` yields that prototype itself). -/
def labelsGet (fieldName : JSString) : Value :=
  match labels.lookup fieldName with
  | some label => .string label
  | none =>
    match objectPrototypeMethods.lookup fieldName with
    | some f => .builtinFunction f
    | none => if fieldName = js "__proto__" then .objectPrototype else .undefined

/-- Method `getFieldLabel`: `labels[fieldName] || fieldName`. -/
def getFieldLabel (fieldName : JSString) : Value :=
  if (labelsGet fieldName).toBoolean then labelsGet fieldName else .string fieldName

/-! ## Fields, error elements and the page -/

/-- A form control matched by `input, select, textarea`. -/
structure Field where
  name : JSString
  value : JSString
  required : Bool
  /-- The value `form.reset()` restores (the `value` attribute of the markup). -/
  defaultValue : JSString
  /-- The inline style `style.borderColor`. -/
  borderColor : JSString
  deriving DecidableEq

/-- An element that carries an `id`, with its `textContent`. -/
structure Element where
  id : JSString
  textContent : JSString
  deriving DecidableEq

/-- `document.getElementById`: the first element with that id, if any. -/
def getElementById (els : List Element) (id : JSString) : Option Element :=
  els.find? (fun e => e.id = id)

/-- Assignment to `textContent` of the element `getElementById` returns. -/
def setTextContent (id text : JSString) : List Element → List Element
  | [] => []
  | e :: es =>
    if e.id = id then { e with textContent := text } :: es
    else e :: setTextContent id text es

/-- Method `showFieldError`. -/
def showFieldError (field : Field) (message : JSString) (els : List Element) :
    Field × List Element :=
  match getElementById els (field.name ++ js "Error") with
  | some _ =>
    ({ field with borderColor := js "#dc3545" },
      setTextContent (field.name ++ js "Error") message els)
  | none => (field, els)

/-- Method `clearFieldError`. -/
def clearFieldError (field : Field) (els : List Element) : Field × List Element :=
  match getElementById els (field.name ++ js "Error") with
  | some _ =>
    ({ field with borderColor := js "" },
      setTextContent (field.name ++ js "Error") (js "") els)
  | none => (field, els)

/-- The local `errorMessage` of `validateField` when line 185 is reached. -/
def errorMessage (field : Field) : JSString :=
  let value := trim field.value
  let fieldName := field.name
  if field.required = true ∧ value = [] then
    (getFieldLabel fieldName).toJSString ++ js " is required."
  else if value ≠ [] then
    if fieldName = js "email" then
      if isValidEmail value = false then js "Please enter a valid email address." else js ""
    else if fieldName = js "phone" then
      if isValidPhone value = false then js "Please enter a valid phone number." else js ""
    else if fieldName = js "name" then
      if value.length < 2 then js "Name must be at least 2 characters long." else js ""
    else if fieldName = js "message" then
      if value.length < 10 then js "Please provide more details (at least 10 characters)."
      else js ""
    else js ""
  else js ""

/-- Method `validateField`: the returned boolean, the field and the elements
after the call. -/
def validateField (field : Field) (els : List Element) : Bool × Field × List Element :=
  let cleared := clearFieldError field els
  if errorMessage field ≠ [] then
    (false, showFieldError cleared.1 (errorMessage field) cleared.2)
  else
    (true, cleared)

/-- The submit control `button[type="submit"]` of the form. -/
structure Button where
  textContent : JSString
  disabled : Bool
  /-- Whether `classList` holds `btn--loading`. -/
  loading : Bool
  deriving DecidableEq

/-- The two closures `submitForm` hands to `setTimeout`, each with the
`originalText` it captured. -/
inductive Callback where
  | showSuccess : JSString → Callback
  | resetForm : JSString → Callback
  deriving DecidableEq

/-- A pending `setTimeout` registration. -/
structure Timer where
  due : Nat
  callback : Callback
  deriving DecidableEq

/-- The part of the page the validation and submission code reads and writes. -/
structure Page where
  /-- The controls `form.querySelectorAll` finds for `input, select, textarea`. -/
  fields : List Field
  /-- Elements with an id, in document order. -/
  elements : List Element
  /-- The submit button `form.querySelector` finds, if the form has one. -/
  submitBtn : Option Button
  /-- The inline style `form.style.display`. -/
  formDisplay : JSString
  /-- Inline `style.display` of the element `formSuccess`, when it exists. -/
  formSuccess : Option JSString
  /-- Current time in milliseconds. -/
  now : Nat
  timers : List Timer
  deriving DecidableEq

/-! ## Validation of the whole form -/

/-- The loop `inputs.forEach(input => { if (!this.validateField(input)) isValid = false })`
started with the given value of the flag `isValid`. -/
def validateEach : List Field → Bool → List Element → Bool × List Field × List Element
  | [], isValid, els => (isValid, [], els)
  | input :: rest, isValid, els =>
    let r := validateField input els
    let out := validateEach rest (if r.1 = false then false else isValid) r.2.2
    (out.1, r.2.1 :: out.2.1, out.2.2)

/-- Method `validateFormBeforeSubmit`: the returned boolean and the page after
the call.  The focus request of lines 133 to 142 writes neither the flag nor
any text content and is not part of the model. -/
def validateFormBeforeSubmit (p : Page) : Bool × Page :=
  let out := validateEach p.fields true p.elements
  (out.1, { p with fields := out.2.1, elements := out.2.2 })

/-! ## Simulated submission -/

/-- Method `submitForm`.  The result is `none` when the form has no submit
button: reading `textContent` of `null` throws. -/
def submitForm (p : Page) : Option Page :=
  match p.submitBtn with
  | none => none
  | some submitBtn =>
    some { p with
      submitBtn := some { textContent := js "Submitting...", disabled := true, loading := true }
      timers := p.timers ++ [{ due := p.now + 2000, callback := .showSuccess submitBtn.textContent }] }

/-- Method `handleFormSubmission`. -/
def handleFormSubmission (p : Page) : Option Page :=
  let out := validateEach p.fields true p.elements
  let q : Page := { p with fields := out.2.1, elements := out.2.2 }
  if out.1 = true then submitForm q else some q

/-- The call `form.reset()`: every control returns to its default value. -/
def resetFields (fields : List Field) : List Field :=
  fields.map (fun f => { f with value := f.defaultValue })

/-- Body of a timer callback of `submitForm`. -/
def runCallback (p : Page) : Callback → Page
  | .showSuccess originalText =>
    { p with
      formDisplay := js "none"
      formSuccess := p.formSuccess.map (fun _ => js "block")
      timers := p.timers ++ [{ due := p.now + 5000, callback := .resetForm originalText }] }
  | .resetForm originalText =>
    { p with
      fields := resetFields p.fields
      formDisplay := js "block"
      formSuccess := p.formSuccess.map (fun _ => js "none")
      submitBtn := p.submitBtn.map
        (fun _ => { textContent := originalText, disabled := false, loading := false }) }

/-- The pending timer that fires next: the earliest due one, and among equally
due ones the one registered first. -/
def nextTimer : List Timer → Option Timer
  | [] => none
  | t :: ts =>
    match nextTimer ts with
    | none => some t
    | some u => if u.due < t.due then some u else some t

/-- The event loop lets the next pending timer fire. -/
def fireTimer (p : Page) : Page :=
  match nextTimer p.timers with
  | none => p
  | some t => runCallback { p with now := max p.now t.due, timers := p.timers.erase t } t.callback

/-! ## Event listeners registered by `setupFormValidation` -/

/-- A dispatched event, with the flag `preventDefault` sets. -/
structure Event where
  defaultPrevented : Bool
  deriving DecidableEq

/-- Method `preventDefault` of a cancelable event. -/
def Event.preventDefault (_ : Event) : Event := { defaultPrevented := true }

/-- The `submit` listener of the contact form. -/
def submitListener (p : Page) (e : Event) : Page × Event :=
  let r := validateFormBeforeSubmit p
  if r.1 = false then (r.2, e.preventDefault) else (r.2, e)

/-- The `blur` listener of the control at a position of the form: it calls
`validateField` on that control. -/
def blurListener (p : Page) (i : Nat) : Page :=
  match p.fields[i]? with
  | none => p
  | some f =>
    let r := validateField f p.elements
    { p with fields := p.fields.set i r.2.1, elements := r.2.2 }

/-- The `input` listener of the control at a position of the form: it calls
`clearFieldError` on that control. -/
def inputListener (p : Page) (i : Nat) : Page :=
  match p.fields[i]? with
  | none => p
  | some f =>
    let r := clearFieldError f p.elements
    { p with fields := p.fields.set i r.1, elements := r.2 }

/-- A call of `validateField` or `clearFieldError` on the control at a position
of the form, as the `blur` and `input` listeners and the form check make them. -/
inductive Call where
  | validateField : Nat → Call
  | clearFieldError : Nat → Call
  deriving DecidableEq

/-- Position of the control a call is made on. -/
def Call.position : Call → Nat
  | .validateField i => i
  | .clearFieldError i => i

/-- Effect of one call on the page. -/
def Call.run (p : Page) : Call → Page
  | .validateField i => blurListener p i
  | .clearFieldError i => inputListener p i

/-- Effect of a sequence of calls, first call first. -/
def runCalls : List Call → Page → Page
  | [], p => p
  | c :: cs, p => runCalls cs (c.run p)

/-- What the most recent `validateField` call on the control at position `i`
returned, if the sequence holds such a call. -/
def lastResult : List Call → Page → Nat → Option Bool
  | [], _, _ => none
  | c :: cs, p, i =>
    match lastResult cs (c.run p) i with
    | some b => some b
    | none =>
      match c with
      | .validateField j =>
        if j = i then (p.fields[i]?).map (fun f => (WebsiteApp.validateField f p.elements).1)
        else none
      | .clearFieldError _ => none

/-- Text of the error slot of a field: `textContent` of the element whose id is
the field name followed by `Error`, when that element exists. -/
def errorSlot (els : List Element) (field : Field) : Option JSString :=
  (getElementById els (field.name ++ js "Error")).map (fun e => e.textContent)

/-! ## Shapes named by the specification -/

/-- The shape `L@D.T`: three non-empty parts without white space and without
`@`, joined by `@` and by `.`. -/
def EmailShape (v : JSString) : Prop :=
  ∃ L D T : JSString, v = L ++ 0x40 :: (D ++ 0x2E :: T) ∧ L ≠ [] ∧ D ≠ [] ∧ T ≠ [] ∧
    ∀ c ∈ L ++ D ++ T, isWhiteSpace c = false ∧ c ≠ 0x40

/-- Digits, the space, `+`, `-`, `(` and `)`: the characters the specification
allows in a phone number. -/
def isListedPhoneChar (c : Nat) : Bool :=
  (0x30 ≤ c && c ≤ 0x39) || c == 0x20 || c == 0x2B || c == 0x2D || c == 0x28 || c == 0x29

/-- The phone shape as the specification words it: only listed characters, at
least 10 of them. -/
def ListedPhoneShape (v : JSString) : Prop :=
  (∀ c ∈ v, isListedPhoneChar c = true) ∧ 10 ≤ v.length

/-- The phone shape of the pattern: an optional leading `+`, then at least 10
characters, each a digit, a white-space character, `-`, `(` or `)`. -/
def PhoneShape (v : JSString) : Prop :=
  ∃ rest : JSString, (v = rest ∨ v = 0x2B :: rest) ∧ 10 ≤ rest.length ∧
    ∀ c ∈ rest, (0x30 ≤ c ∧ c ≤ 0x39) ∨ isWhiteSpace c = true ∨ c = 0x2D ∨ c = 0x28 ∨ c = 0x29

/-! ## Sample inputs -/

/-- A control with the given name, value and required flag and nothing else set. -/
def mkField (name value : String) (required : Bool) : Field :=
  { name := js name, value := js value, required := required, defaultValue := [],
    borderColor := [] }

/-- An empty error element for the field of the given name. -/
def mkSlot (name : String) : Element := { id := js name ++ js "Error", textContent := [] }

/-- A page around the given controls and error elements, with a submit button
labelled `Send Message`, a hidden success notice and no pending timer. -/
def mkPage (fields : List Field) (elements : List Element) : Page :=
  { fields := fields, elements := elements,
    submitBtn := some { textContent := js "Send Message", disabled := false, loading := false },
    formDisplay := [], formSuccess := some (js "none"), now := 0, timers := [] }

/-- A form holding one required, empty control named `name` and its error element. -/
def emptyNamePage : Page := mkPage [mkField "name" "" true] [mkSlot "name"]

/-- The filled-in form of the second scenario of the specification. -/
def janePage : Page :=
  mkPage
    [mkField "name" "Jane Doe" true, mkField "email" "jane@example.com" true,
      mkField "phone" "555-123-4567" true, mkField "message" "Please build me a deck." true]
    [mkSlot "name", mkSlot "email", mkSlot "phone", mkSlot "message"]

/-- A form whose only control has the default value `general` and the current
value `wiring`. -/
def presetPage : Page :=
  mkPage
    [{ name := js "service", value := js "wiring", required := false,
       defaultValue := js "general", borderColor := [] }]
    [mkSlot "service"]

/-- A form with a required, empty control `name` and a control `email` holding
`bad`, each with its error element. -/
def twoFieldPage : Page :=
  mkPage [mkField "name" "" true, mkField "email" "bad" true] [mkSlot "name", mkSlot "email"]

/-! ## Auxiliary definitions of the proofs -/

/-- Name of the control at a position of the form, if there is one. -/
def nameAt (p : Page) (j : Nat) : Option JSString := (p.fields[j]?).map Field.name

/-- What validation reads of a control: its name, its value and its required flag. -/
def Field.core (f : Field) : JSString × JSString × Bool := (f.name, f.value, f.required)

/-- What validation reads of the control at a position of the form. -/
def coreAt (p : Page) (j : Nat) : Option (JSString × JSString × Bool) :=
  (p.fields[j]?).map Field.core

/-- The write `validateField` leaves on the elements: the id of the error
element of the field and the text it receives. -/
def slotWrite (f : Field) : JSString × JSString := (f.name ++ js "Error", errorMessage f)

/-- A sequence of `textContent` assignments, first assignment first. -/
def applyWrites (ws : List (JSString × JSString)) (els : List Element) : List Element :=
  ws.foldl (fun e w => setTextContent w.1 w.2 e) els

/-- The field `validateField` leaves behind: its border colour is rewritten when
its error element exists. -/
def markField (els : List Element) (f : Field) : Field :=
  match getElementById els (f.name ++ js "Error") with
  | some _ => { f with borderColor := if errorMessage f = [] then js "" else js "#dc3545" }
  | none => f

/-! ## Correctness of the derivative matcher -/

namespace RegExp

theorem not_matches_never (x : JSString) : ¬ Matches never x := by
  intro h
  cases h

theorem matches_empty_iff (x : JSString) : Matches empty x ↔ x = [] := by
  constructor
  · intro h
    cases h
    rfl
  · rintro rfl
    exact Matches.empty

theorem matches_cls_iff (p : Nat → Bool) (x : JSString) :
    Matches (cls p) x ↔ ∃ c, x = [c] ∧ p c = true := by
  constructor
  · intro h
    cases h with
    | cls _ c hc => exact ⟨c, rfl, hc⟩
  · rintro ⟨c, rfl, hc⟩
    exact Matches.cls p c hc

theorem matches_alt_iff (r s : RegExp) (x : JSString) :
    Matches (alt r s) x ↔ Matches r x ∨ Matches s x := by
  constructor
  · intro h
    cases h with
    | altL _ _ _ h => exact Or.inl h
    | altR _ _ _ h => exact Or.inr h
  · rintro (h | h)
    · exact Matches.altL r s x h
    · exact Matches.altR r s x h

theorem matches_seq_iff (r s : RegExp) (x : JSString) :
    Matches (seq r s) x ↔ ∃ a b, x = a ++ b ∧ Matches r a ∧ Matches s b := by
  constructor
  · intro h
    cases h with
    | seq _ _ a b ha hb => exact ⟨a, b, rfl, ha, hb⟩
  · rintro ⟨a, b, rfl, ha, hb⟩
    exact Matches.seq r s a b ha hb

theorem nullable_of_matches {r : RegExp} {x : JSString} (h : Matches r x) :
    x = [] → nullable r = true := by
  induction h with
  | empty => intro _; rfl
  | cls p c _ => intro hx; cases hx
  | altL r s x _ ih => intro hx; simp [nullable, ih hx]
  | altR r s x _ ih => intro hx; simp [nullable, ih hx]
  | seq r s x y _ _ ihx ihy =>
    intro hx
    obtain ⟨h1, h2⟩ := List.append_eq_nil.mp hx
    simp [nullable, ihx h1, ihy h2]
  | starNil r => intro _; rfl
  | starCons r x y _ _ _ _ => intro _; rfl

theorem matches_nil_of_nullable : ∀ r : RegExp, nullable r = true → Matches r []
  | never, h => by simp [nullable] at h
  | empty, _ => Matches.empty
  | cls _, h => by simp [nullable] at h
  | alt r s, h => by
    simp only [nullable, Bool.or_eq_true] at h
    rcases h with h | h
    · exact Matches.altL r s [] (matches_nil_of_nullable r h)
    · exact Matches.altR r s [] (matches_nil_of_nullable s h)
  | seq r s, h => by
    simp only [nullable, Bool.and_eq_true] at h
    exact Matches.seq r s [] [] (matches_nil_of_nullable r h.1) (matches_nil_of_nullable s h.2)
  | star r, _ => Matches.starNil r

theorem nullable_iff (r : RegExp) : nullable r = true ↔ Matches r [] :=
  ⟨matches_nil_of_nullable r, fun h => nullable_of_matches h rfl⟩

theorem matches_cons_of_deriv : ∀ (r : RegExp) (c : Nat) (x : JSString),
    Matches (deriv r c) x → Matches r (c :: x)
  | never, _, _, h => by cases h
  | empty, _, _, h => by cases h
  | cls p, c, x, h => by
    by_cases hp : p c = true
    · simp only [deriv, hp, if_true] at h
      rw [(matches_empty_iff x).mp h]
      exact Matches.cls p c hp
    · simp only [deriv, hp, Bool.false_eq_true, if_false] at h
      cases h
  | alt r s, c, x, h => by
    simp only [deriv] at h
    rcases (matches_alt_iff _ _ _).mp h with h | h
    · exact Matches.altL r s _ (matches_cons_of_deriv r c x h)
    · exact Matches.altR r s _ (matches_cons_of_deriv s c x h)
  | seq r s, c, x, h => by
    have left : Matches (seq (deriv r c) s) x → Matches (seq r s) (c :: x) := by
      intro h
      obtain ⟨a, b, rfl, ha, hb⟩ := (matches_seq_iff _ _ _).mp h
      exact Matches.seq r s (c :: a) b (matches_cons_of_deriv r c a ha) hb
    by_cases hn : nullable r = true
    · simp only [deriv, hn, if_true] at h
      rcases (matches_alt_iff _ _ _).mp h with h | h
      · exact left h
      · exact Matches.seq r s [] (c :: x) (matches_nil_of_nullable r hn)
          (matches_cons_of_deriv s c x h)
    · simp only [deriv, hn, Bool.false_eq_true, if_false] at h
      exact left h
  | star r, c, x, h => by
    simp only [deriv] at h
    obtain ⟨a, b, rfl, ha, hb⟩ := (matches_seq_iff _ _ _).mp h
    exact Matches.starCons r (c :: a) b (matches_cons_of_deriv r c a ha) hb

theorem matches_deriv_of_cons {r : RegExp} {x : JSString} (h : Matches r x) :
    ∀ (c : Nat) (y : JSString), x = c :: y → Matches (deriv r c) y := by
  induction h with
  | empty => intro c y hx; cases hx
  | cls p d hd =>
    intro c y hx
    injection hx with h1 h2
    subst h1 h2
    simp only [deriv, hd, if_true]
    exact Matches.empty
  | altL r s x _ ih => intro c y hx; exact Matches.altL _ _ _ (ih c y hx)
  | altR r s x _ ih => intro c y hx; exact Matches.altR _ _ _ (ih c y hx)
  | seq r s a b ha hb iha ihb =>
    intro c y hx
    cases a with
    | nil =>
      have hn : nullable r = true := nullable_of_matches ha rfl
      simp only [deriv, hn, if_true]
      exact Matches.altR _ _ _ (ihb c y hx)
    | cons d a =>
      injection hx with h1 h2
      subst h1 h2
      have hs : Matches (seq (deriv r d) s) (a ++ b) :=
        Matches.seq _ _ a b (iha d a rfl) hb
      by_cases hn : nullable r = true
      · simp only [deriv, hn, if_true]
        exact Matches.altL _ _ _ hs
      · simp only [deriv, hn, Bool.false_eq_true, if_false]
        exact hs
  | starNil r => intro c y hx; cases hx
  | starCons r a b ha hb iha ihb =>
    intro c y hx
    cases a with
    | nil => exact ihb c y hx
    | cons d a =>
      injection hx with h1 h2
      subst h1 h2
      simp only [deriv]
      exact Matches.seq _ _ a b (iha d a rfl) hb

theorem deriv_iff (r : RegExp) (c : Nat) (x : JSString) :
    Matches (deriv r c) x ↔ Matches r (c :: x) :=
  ⟨matches_cons_of_deriv r c x, fun h => matches_deriv_of_cons h c x rfl⟩

/-- The derivative matcher decides membership in the language. -/
theorem test_iff : ∀ (x : JSString) (r : RegExp), test r x = true ↔ Matches r x
  | [], r => by simpa [test] using nullable_iff r
  | c :: x, r => by
    simp only [test]
    rw [test_iff x (deriv r c), deriv_iff]

theorem matches_star_cls_iff (p : Nat → Bool) (x : JSString) :
    Matches (star (cls p)) x ↔ ∀ c ∈ x, p c = true := by
  constructor
  · intro h
    generalize hr : star (cls p) = r at h
    induction h with
    | empty => cases hr
    | cls _ _ _ => cases hr
    | altL _ _ _ _ _ => cases hr
    | altR _ _ _ _ _ => cases hr
    | seq _ _ _ _ _ _ _ _ => cases hr
    | starNil _ => simp
    | starCons r a b ha _ _ ihb =>
      injection hr with hr
      subst hr
      obtain ⟨d, rfl, hd⟩ := (matches_cls_iff p a).mp ha
      intro c hc
      rcases List.mem_append.mp hc with hc | hc
      · rw [List.mem_singleton.mp hc]; exact hd
      · exact ihb rfl c hc
  · intro h
    induction x with
    | nil => exact Matches.starNil _
    | cons c x ih =>
      exact Matches.starCons (cls p) [c] x (Matches.cls p c (h c (List.mem_cons_self c x)))
        (ih (fun d hd => h d (List.mem_cons_of_mem c hd)))

theorem matches_plus_cls_iff (p : Nat → Bool) (x : JSString) :
    Matches (plus (cls p)) x ↔ x ≠ [] ∧ ∀ c ∈ x, p c = true := by
  simp only [plus, matches_seq_iff, matches_cls_iff, matches_star_cls_iff]
  constructor
  · rintro ⟨a, b, rfl, ⟨c, rfl, hc⟩, hb⟩
    refine ⟨by simp, ?_⟩
    intro d hd
    rcases List.mem_append.mp hd with hd | hd
    · rw [List.mem_singleton.mp hd]; exact hc
    · exact hb d hd
  · rintro ⟨hne, h⟩
    cases x with
    | nil => exact absurd rfl hne
    | cons c x =>
      exact ⟨[c], x, rfl, ⟨c, rfl, h c (List.mem_cons_self c x)⟩,
        fun d hd => h d (List.mem_cons_of_mem c hd)⟩

theorem matches_atLeast_cls_iff (p : Nat → Bool) : ∀ (n : Nat) (x : JSString),
    Matches (atLeast n (cls p)) x ↔ n ≤ x.length ∧ ∀ c ∈ x, p c = true
  | 0, x => by simp [atLeast, matches_star_cls_iff]
  | n + 1, x => by
    simp only [atLeast, matches_seq_iff, matches_cls_iff, matches_atLeast_cls_iff p n]
    constructor
    · rintro ⟨a, b, rfl, ⟨c, rfl, hc⟩, hlen, hb⟩
      refine ⟨by simp; omega, ?_⟩
      intro d hd
      rcases List.mem_append.mp hd with hd | hd
      · rw [List.mem_singleton.mp hd]; exact hc
      · exact hb d hd
    · rintro ⟨hlen, h⟩
      cases x with
      | nil => simp at hlen
      | cons c x =>
        refine ⟨[c], x, rfl, ⟨c, rfl, h c (List.mem_cons_self c x)⟩, ?_,
          fun d hd => h d (List.mem_cons_of_mem c hd)⟩
        simp at hlen
        omega

theorem matches_opt_iff (r : RegExp) (x : JSString) :
    Matches (opt r) x ↔ x = [] ∨ Matches r x := by
  simp [opt, matches_alt_iff, matches_empty_iff]

end RegExp

/-! ## The two patterns -/

theorem notSpaceOrAt_iff (c : Nat) :
    notSpaceOrAt c = true ↔ isWhiteSpace c = false ∧ c ≠ 0x40 := by
  simp [notSpaceOrAt]

theorem isPhoneChar_iff (c : Nat) :
    isPhoneChar c = true ↔
      (0x30 ≤ c ∧ c ≤ 0x39) ∨ isWhiteSpace c = true ∨ c = 0x2D ∨ c = 0x28 ∨ c = 0x29 := by
  simp [isPhoneChar, or_assoc]

theorem isValidEmail_iff (v : JSString) : isValidEmail v = true ↔ EmailShape v := by
  unfold isValidEmail emailRegex EmailShape
  rw [RegExp.test_iff]
  simp only [RegExp.matches_seq_iff, RegExp.matches_plus_cls_iff, RegExp.matches_cls_iff,
    notSpaceOrAt_iff, beq_iff_eq]
  constructor
  · rintro ⟨L, _, rfl, ⟨hL, hLc⟩, _, _, rfl, ⟨_, rfl, rfl⟩, D, _, rfl, ⟨hD, hDc⟩,
      _, T, rfl, ⟨_, rfl, rfl⟩, hT, hTc⟩
    refine ⟨L, D, T, by simp, hL, hD, hT, ?_⟩
    intro c hc
    simp only [List.mem_append] at hc
    rcases hc with (hc | hc) | hc
    · exact hLc c hc
    · exact hDc c hc
    · exact hTc c hc
  · rintro ⟨L, D, T, rfl, hL, hD, hT, hc⟩
    refine ⟨L, _, rfl, ⟨hL, fun c h => hc c (by simp [h])⟩, [0x40], _, rfl, ⟨_, rfl, rfl⟩,
      D, _, rfl, ⟨hD, fun c h => hc c (by simp [h])⟩, [0x2E], T, rfl, ⟨_, rfl, rfl⟩, hT,
      fun c h => hc c (by simp [h])⟩

theorem isValidPhone_iff (v : JSString) : isValidPhone v = true ↔ PhoneShape v := by
  unfold isValidPhone phoneRegex PhoneShape
  rw [RegExp.test_iff]
  simp only [RegExp.matches_seq_iff, RegExp.matches_opt_iff, RegExp.matches_atLeast_cls_iff,
    RegExp.matches_cls_iff, isPhoneChar_iff, isPlusSign, beq_iff_eq]
  constructor
  · rintro ⟨a, rest, rfl, ha, hlen, hc⟩
    rcases ha with rfl | ⟨_, rfl, rfl⟩
    · exact ⟨rest, Or.inl rfl, hlen, hc⟩
    · exact ⟨rest, Or.inr rfl, hlen, hc⟩
  · rintro ⟨rest, hv, hlen, hc⟩
    rcases hv with hv | hv
    · exact ⟨[], rest, by simpa using hv, Or.inl rfl, hlen, hc⟩
    · exact ⟨[0x2B], rest, by simpa using hv, Or.inr ⟨_, rfl, rfl⟩, hlen, hc⟩

/-! ## `validateField` -/

theorem js_empty : js "" = [] := rfl

theorem validateField_fst (f : Field) (els : List Element) :
    (validateField f els).1 = decide (errorMessage f = []) := by
  unfold validateField
  split <;> simp_all

theorem validateField_eq_true_iff (f : Field) (els : List Element) :
    (validateField f els).1 = true ↔ errorMessage f = [] := by
  simp [validateField_fst]

theorem validateField_eq_false_iff (f : Field) (els : List Element) :
    (validateField f els).1 = false ↔ errorMessage f ≠ [] := by
  simp [validateField_fst]

theorem errorMessage_required (f : Field) (hreq : f.required = true) (hv : trim f.value = []) :
    errorMessage f = (getFieldLabel f.name).toJSString ++ js " is required." := by
  simp [errorMessage, hreq, hv]

theorem errorMessage_email (f : Field) (hname : f.name = js "email") (hv : trim f.value ≠ []) :
    errorMessage f =
      if isValidEmail (trim f.value) = false then js "Please enter a valid email address."
      else js "" := by
  simp [errorMessage, hname, hv]

theorem errorMessage_phone (f : Field) (hname : f.name = js "phone") (hv : trim f.value ≠ []) :
    errorMessage f =
      if isValidPhone (trim f.value) = false then js "Please enter a valid phone number."
      else js "" := by
  have h1 : js "phone" ≠ js "email" := by decide
  simp [errorMessage, hname, hv, h1]

theorem errorMessage_name (f : Field) (hname : f.name = js "name") (hv : trim f.value ≠ []) :
    errorMessage f =
      if (trim f.value).length < 2 then js "Name must be at least 2 characters long."
      else js "" := by
  have h1 : js "name" ≠ js "email" := by decide
  have h2 : js "name" ≠ js "phone" := by decide
  simp [errorMessage, hname, hv, h1, h2]

theorem errorMessage_optional_empty (f : Field) (hreq : f.required = false)
    (hv : trim f.value = []) : errorMessage f = [] := by
  simp [errorMessage, hreq, hv, js]

theorem validateEach_fst : ∀ (fs : List Field) (b : Bool) (els : List Element),
    (validateEach fs b els).1 = (b && fs.all (fun f => decide (errorMessage f = [])))
  | [], b, els => by simp [validateEach]
  | f :: fs, b, els => by
    simp only [validateEach, List.all_cons]
    rw [validateEach_fst fs, validateField_fst]
    by_cases h : errorMessage f = [] <;> simp [h]

theorem validateFormBeforeSubmit_fst_iff (p : Page) :
    (validateFormBeforeSubmit p).1 = true ↔
      ∀ f ∈ p.fields, ∀ els : List Element, (validateField f els).1 = true := by
  simp [validateFormBeforeSubmit, validateEach_fst, validateField_fst]

/-! ## Claims about validation -/

/-- C1: `validateFormBeforeSubmit` returns true exactly when `validateField`
returns true for every field of the form, whatever the error elements hold. -/
theorem validateFormBeforeSubmit_iff_all (p : Page) :
    (validateFormBeforeSubmit p).1 = true ↔
      ∀ f ∈ p.fields, ∀ els : List Element, (validateField f els).1 = true :=
  validateFormBeforeSubmit_fst_iff p

/-- C2 at the failing input: a required empty field named `__proto__` is
rejected with the label `[object Object]`, not with the raw field name. -/
theorem required_proto_label :
    (validateField (mkField "__proto__" "" true) []).1 = false ∧
    errorMessage (mkField "__proto__" "" true) = js "[object Object] is required." ∧
    errorMessage (mkField "__proto__" "" true) ≠ js "__proto__ is required." := by
  decide

/-- Labels of the required rule away from the inherited properties: the five
names of the markup have their display names, and a name that `labels` and
`Object.prototype` do not know falls back to itself. -/
theorem required_label_message (f : Field) (els : List Element)
    (hreq : f.required = true) (hv : trim f.value = []) :
    (validateField f els).1 = false ∧
    (f.name = js "name" → errorMessage f = js "Full Name is required.") ∧
    (f.name = js "email" → errorMessage f = js "Email Address is required.") ∧
    (f.name = js "phone" → errorMessage f = js "Phone Number is required.") ∧
    (f.name = js "service" → errorMessage f = js "Service Type is required.") ∧
    (f.name = js "message" → errorMessage f = js "Project Details is required.") ∧
    (labelsGet f.name = .undefined → errorMessage f = f.name ++ js " is required.") := by
  rw [validateField_eq_false_iff, errorMessage_required f hreq hv]
  refine ⟨?_, ?_, ?_, ?_, ?_, ?_, ?_⟩
  · exact List.append_ne_nil_of_right_ne_nil _ (by decide)
  · intro h; rw [h]; decide
  · intro h; rw [h]; decide
  · intro h; rw [h]; decide
  · intro h; rw [h]; decide
  · intro h; rw [h]; decide
  · intro h; simp [getFieldLabel, h, Value.toBoolean, Value.toJSString]

/-- C3: for a field named `email` with a non-empty trimmed value, validation
passes exactly when the trimmed value has the shape `L@D.T`, and every other
value fails with the email message. -/
theorem validateField_email (f : Field) (els : List Element)
    (hname : f.name = js "email") (hv : trim f.value ≠ []) :
    ((validateField f els).1 = true ↔ EmailShape (trim f.value)) ∧
    (¬ EmailShape (trim f.value) →
      (validateField f els).1 = false ∧
      errorMessage f = js "Please enter a valid email address.") := by
  rw [validateField_eq_true_iff, validateField_eq_false_iff, errorMessage_email f hname hv,
    ← isValidEmail_iff]
  have hmsg : js "Please enter a valid email address." ≠ [] := by decide
  cases h : isValidEmail (trim f.value)
  · simp [hmsg]
  · simp [js]

/-- Witness of C3 at `jane@example.com`. -/
theorem validateField_email_witness :
    (mkField "email" "jane@example.com" true).name = js "email" ∧
    trim (mkField "email" "jane@example.com" true).value ≠ [] ∧
    ((validateField (mkField "email" "jane@example.com" true) []).1 = true ↔
      EmailShape (trim (mkField "email" "jane@example.com" true).value)) :=
  ⟨by decide, by decide,
    (validateField_email (mkField "email" "jane@example.com" true) [] (by decide) (by decide)).1⟩

/-- C4 as stated fails: `+123456789` has ten characters, all of them listed, and
is rejected. -/
theorem listed_phone_rejected :
    (mkField "phone" "+123456789" false).name = js "phone" ∧
    trim (mkField "phone" "+123456789" false).value ≠ [] ∧
    ListedPhoneShape (trim (mkField "phone" "+123456789" false).value) ∧
    (validateField (mkField "phone" "+123456789" false) []).1 = false := by
  refine ⟨by decide, by decide, ⟨by decide, by decide⟩, by decide⟩

/-- C4 amended: for a field named `phone` with a non-empty trimmed value,
validation passes exactly when the trimmed value is an optional leading `+`
followed by at least 10 characters, each a digit, a white-space character, `-`,
`(` or `)`; every other value, every value of fewer than 10 characters among
them, fails with the phone message. -/
theorem validateField_phone (f : Field) (els : List Element)
    (hname : f.name = js "phone") (hv : trim f.value ≠ []) :
    ((validateField f els).1 = true ↔ PhoneShape (trim f.value)) ∧
    (¬ PhoneShape (trim f.value) →
      (validateField f els).1 = false ∧
      errorMessage f = js "Please enter a valid phone number.") ∧
    ((trim f.value).length < 10 → ¬ PhoneShape (trim f.value)) := by
  rw [validateField_eq_true_iff, validateField_eq_false_iff, errorMessage_phone f hname hv,
    ← isValidPhone_iff]
  have hmsg : js "Please enter a valid phone number." ≠ [] := by decide
  refine ⟨?_, ?_, ?_⟩
  · cases h : isValidPhone (trim f.value)
    · simp [hmsg]
    · simp [js_empty]
  · cases h : isValidPhone (trim f.value)
    · simp [hmsg]
    · simp
  · rw [isValidPhone_iff]
    rintro hlen ⟨rest, hrest | hrest, h10, _⟩
    · rw [hrest] at hlen
      omega
    · rw [hrest, List.length_cons] at hlen
      omega

/-- Witness of the amended C4 at `555-123-4567`. -/
theorem validateField_phone_witness :
    (mkField "phone" "555-123-4567" true).name = js "phone" ∧
    trim (mkField "phone" "555-123-4567" true).value ≠ [] ∧
    ((validateField (mkField "phone" "555-123-4567" true) []).1 = true ↔
      PhoneShape (trim (mkField "phone" "555-123-4567" true).value)) :=
  ⟨by decide, by decide,
    (validateField_phone (mkField "phone" "555-123-4567" true) [] (by decide) (by decide)).1⟩

/-- C5 as stated fails: an optional field named `name` with an empty value has a
trimmed length below 2 and passes. -/
theorem optional_empty_name_passes :
    (mkField "name" "" false).name = js "name" ∧
    (trim (mkField "name" "" false).value).length < 2 ∧
    (validateField (mkField "name" "" false) []).1 = true := by
  decide

/-- C5 amended: a field named `name` passes when its trimmed value has length at
least 2, passes when it is optional and its trimmed value is empty, and fails
in every other case, that is when the trimmed length is below 2 and the field
is required or the trimmed value is not empty. -/
theorem validateField_name (f : Field) (els : List Element) (hname : f.name = js "name") :
    (2 ≤ (trim f.value).length → (validateField f els).1 = true) ∧
    (f.required = false → trim f.value = [] → (validateField f els).1 = true) ∧
    ((trim f.value).length < 2 → (f.required = true ∨ trim f.value ≠ []) →
      (validateField f els).1 = false) := by
  refine ⟨?_, ?_, ?_⟩
  · intro h
    have hv : trim f.value ≠ [] := by
      intro h0
      rw [h0] at h
      simp at h
    rw [validateField_eq_true_iff, errorMessage_name f hname hv]
    simp [Nat.not_lt.mpr h, js]
  · intro hreq hv
    rw [validateField_eq_true_iff]
    exact errorMessage_optional_empty f hreq hv
  · intro hlen hor
    rw [validateField_eq_false_iff]
    by_cases hv : trim f.value = []
    · rcases hor with hreq | hne
      · rw [errorMessage_required f hreq hv]
        exact List.append_ne_nil_of_right_ne_nil _ (by decide)
      · exact absurd hv hne
    · rw [errorMessage_name f hname hv]
      simp only [hlen, if_true]
      decide

/-- Witness of the amended C5 at the one-character value `A`. -/
theorem validateField_name_witness :
    (mkField "name" "A" false).name = js "name" ∧
    (trim (mkField "name" "A" false).value).length < 2 ∧
    (validateField (mkField "name" "A" false) []).1 = false :=
  ⟨by decide, by decide,
    (validateField_name (mkField "name" "A" false) [] (by decide)).2.2 (by decide)
      (Or.inr (by decide))⟩

/-! ## Error elements -/

theorem getElementById_setTextContent_same (id t : JSString) (els : List Element) :
    getElementById (setTextContent id t els) id =
      (getElementById els id).map (fun e => { e with textContent := t }) := by
  induction els with
  | nil => rfl
  | cons e es ih =>
    by_cases h : e.id = id
    · simp [getElementById, setTextContent, h]
    · simpa [getElementById, setTextContent, h] using ih

theorem getElementById_setTextContent_isSome (id id2 t : JSString) (els : List Element) :
    (getElementById (setTextContent id t els) id2).isSome = (getElementById els id2).isSome := by
  induction els with
  | nil => rfl
  | cons e es ih =>
    by_cases h : e.id = id
    · subst h
      by_cases h2 : e.id = id2
      · subst h2
        simp [getElementById, setTextContent]
      · simp [getElementById, setTextContent, h2]
    · by_cases h2 : e.id = id2
      · subst h2
        simp [getElementById, setTextContent, h]
      · simpa [getElementById, setTextContent, h, h2] using ih

theorem setTextContent_of_none (id t : JSString) (els : List Element)
    (h : getElementById els id = none) : setTextContent id t els = els := by
  induction els with
  | nil => rfl
  | cons e es ih =>
    by_cases h1 : e.id = id
    · simp [getElementById, h1] at h
    · simp only [getElementById, List.find?_cons, h1, decide_False] at h
      simp [setTextContent, h1, ih h]

theorem setTextContent_setTextContent (id t u : JSString) (els : List Element) :
    setTextContent id t (setTextContent id u els) = setTextContent id t els := by
  induction els with
  | nil => rfl
  | cons e es ih =>
    by_cases h : e.id = id
    · simp [setTextContent, h]
    · simp [setTextContent, h, ih]

theorem setTextContent_comm (a b t u : JSString) (hab : a ≠ b) (els : List Element) :
    setTextContent a t (setTextContent b u els) = setTextContent b u (setTextContent a t els) := by
  induction els with
  | nil => rfl
  | cons e es ih =>
    by_cases ha : e.id = a
    · have hb : e.id ≠ b := fun h => hab (ha.symm.trans h)
      simp [setTextContent, ha, hb, hab]
    · by_cases hb : e.id = b
      · simp [setTextContent, ha, hb, Ne.symm hab]
      · simp [setTextContent, ha, hb, ih]

/-- The elements after `validateField`: one write into the error element. -/
theorem validateField_elements (f : Field) (els : List Element) :
    (validateField f els).2.2 = setTextContent (f.name ++ js "Error") (errorMessage f) els := by
  unfold validateField showFieldError clearFieldError
  cases h : getElementById els (f.name ++ js "Error") with
  | none =>
    have h0 := fun t => setTextContent_of_none _ t els h
    by_cases hm : errorMessage f = [] <;> simp [h, hm, h0]
  | some e =>
    have h1 : (getElementById (setTextContent (f.name ++ js "Error") (js "") els)
        (f.name ++ js "Error")) = some { e with textContent := js "" } := by
      rw [getElementById_setTextContent_same, h]; rfl
    by_cases hm : errorMessage f = []
    · simp [h, hm, js_empty]
    · simp [h, hm, h1, setTextContent_setTextContent]

/-- The field after `validateField`. -/
theorem validateField_field (f : Field) (els : List Element) :
    (validateField f els).2.1 = markField els f := by
  unfold validateField showFieldError clearFieldError markField
  cases h : getElementById els (f.name ++ js "Error") with
  | none => by_cases hm : errorMessage f = [] <;> simp [h, hm]
  | some e =>
    have h1 : (getElementById (setTextContent (f.name ++ js "Error") (js "") els)
        (f.name ++ js "Error")) = some { e with textContent := js "" } := by
      rw [getElementById_setTextContent_same, h]; rfl
    by_cases hm : errorMessage f = []
    · simp [h, hm]
    · simp [h, hm, h1]

/-- The error slot after `validateField` holds the error message. -/
theorem errorSlot_validateField (f : Field) (els : List Element) :
    errorSlot (validateField f els).2.2 f = (errorSlot els f).map (fun _ => errorMessage f) := by
  rw [validateField_elements]
  unfold errorSlot
  rw [getElementById_setTextContent_same]
  cases getElementById els (f.name ++ js "Error") <;> rfl

/-- The error slot after `clearFieldError` is empty. -/
theorem errorSlot_clearFieldError (f : Field) (els : List Element) :
    errorSlot (clearFieldError f els).2 f = (errorSlot els f).map (fun _ => []) := by
  unfold clearFieldError errorSlot
  cases h : getElementById els (f.name ++ js "Error") with
  | none => simp [h]
  | some e => simp [h, getElementById_setTextContent_same, js_empty]

/-! ## Sequences of writes -/

theorem applyWrites_cons (w : JSString × JSString) (ws : List (JSString × JSString))
    (els : List Element) :
    applyWrites (w :: ws) els = applyWrites ws (setTextContent w.1 w.2 els) := rfl

theorem getElementById_applyWrites_isSome (id : JSString) :
    ∀ (ws : List (JSString × JSString)) (els : List Element),
      (getElementById (applyWrites ws els) id).isSome = (getElementById els id).isSome
  | [], _ => rfl
  | w :: ws, els => by
    rw [applyWrites_cons, getElementById_applyWrites_isSome id ws,
      getElementById_setTextContent_isSome]

/-- A write is lost when a later write of the sequence goes to the same id. -/
theorem applyWrites_absorb (a t : JSString) :
    ∀ (ws : List (JSString × JSString)) (els : List Element), a ∈ ws.map Prod.fst →
      applyWrites ws (setTextContent a t els) = applyWrites ws els
  | [], _, h => by simp at h
  | w :: ws, els, h => by
    rw [applyWrites_cons, applyWrites_cons]
    by_cases hw : w.1 = a
    · rw [← hw, setTextContent_setTextContent]
    · have hmem : a ∈ ws.map Prod.fst := by
        simp only [List.map_cons, List.mem_cons] at h
        rcases h with h | h
        · exact absurd h.symm hw
        · exact h
      rw [setTextContent_comm w.1 a w.2 t hw, applyWrites_absorb a t ws _ hmem]

/-- A write commutes with a sequence that does not touch its id. -/
theorem applyWrites_comm (a t : JSString) :
    ∀ (ws : List (JSString × JSString)) (els : List Element), a ∉ ws.map Prod.fst →
      applyWrites ws (setTextContent a t els) = setTextContent a t (applyWrites ws els)
  | [], _, _ => rfl
  | w :: ws, els, h => by
    simp only [List.map_cons, List.mem_cons, not_or] at h
    rw [applyWrites_cons, applyWrites_cons,
      setTextContent_comm w.1 a w.2 t (fun e => h.1 e.symm), applyWrites_comm a t ws _ h.2]

/-- Running a sequence of writes twice leaves what running it once leaves. -/
theorem applyWrites_idem : ∀ (ws : List (JSString × JSString)) (els : List Element),
    applyWrites ws (applyWrites ws els) = applyWrites ws els
  | [], _ => rfl
  | w :: ws, els => by
    rw [applyWrites_cons, applyWrites_cons]
    by_cases h : w.1 ∈ ws.map Prod.fst
    · rw [applyWrites_absorb w.1 w.2 ws _ h, applyWrites_idem ws]
    · rw [applyWrites_comm w.1 w.2 ws els h, setTextContent_setTextContent,
        applyWrites_comm w.1 w.2 ws _ h, applyWrites_idem ws]

/-! ## The form check in closed form -/

theorem markField_congr (f : Field) (els els2 : List Element)
    (h : (getElementById els (f.name ++ js "Error")).isSome =
      (getElementById els2 (f.name ++ js "Error")).isSome) :
    markField els f = markField els2 f := by
  unfold markField
  cases h1 : getElementById els (f.name ++ js "Error") <;>
    cases h2 : getElementById els2 (f.name ++ js "Error") <;> simp_all

theorem slotWrite_markField (els : List Element) (f : Field) :
    slotWrite (markField els f) = slotWrite f := by
  unfold markField
  cases getElementById els (f.name ++ js "Error") <;> rfl

theorem errorMessage_markField (els : List Element) (f : Field) :
    errorMessage (markField els f) = errorMessage f :=
  congrArg Prod.snd (slotWrite_markField els f)

theorem markField_markField (els : List Element) (f : Field) :
    markField els (markField els f) = markField els f := by
  have hm := errorMessage_markField els f
  unfold markField at hm ⊢
  cases h : getElementById els (f.name ++ js "Error") with
  | none => simp [h]
  | some e =>
    simp only [h] at hm ⊢
    rw [hm]

theorem validateEach_eq : ∀ (fs : List Field) (b : Bool) (els : List Element),
    validateEach fs b els =
      (b && fs.all (fun f => decide (errorMessage f = [])), fs.map (markField els),
        applyWrites (fs.map slotWrite) els)
  | [], b, els => by simp [validateEach, applyWrites]
  | f :: fs, b, els => by
    have hmark : fs.map (markField (setTextContent (f.name ++ js "Error") (errorMessage f) els))
        = fs.map (markField els) :=
      List.map_congr_left (fun g _ =>
        markField_congr g _ _ (getElementById_setTextContent_isSome _ _ _ _))
    simp only [validateEach, validateEach_eq fs, validateField_elements, validateField_field,
      validateField_fst, hmark, List.map_cons, List.all_cons, applyWrites_cons, slotWrite]
    by_cases h : errorMessage f = [] <;> simp [h]

/-! ## Claims about the error slots and the form check -/

theorem runCalls_append : ∀ (cs ds : List Call) (p : Page),
    runCalls (cs ++ ds) p = runCalls ds (runCalls cs p)
  | [], _, _ => rfl
  | c :: cs, ds, p => by simp [runCalls, runCalls_append cs ds]

theorem lastResult_cons_of_some (c : Call) (cs : List Call) (p : Page) (i : Nat) (b : Bool)
    (h : lastResult cs (c.run p) i = some b) : lastResult (c :: cs) p i = some b := by
  simp only [lastResult, h]

theorem lastResult_append_of_some : ∀ (cs ds : List Call) (p : Page) (i : Nat) (b : Bool),
    lastResult ds (runCalls cs p) i = some b → lastResult (cs ++ ds) p i = some b
  | [], _, _, _, _, h => h
  | c :: cs, ds, p, i, b, h =>
    lastResult_cons_of_some c _ p i b (lastResult_append_of_some cs ds (c.run p) i b h)

theorem lastResult_eq_none : ∀ (cs : List Call) (p : Page) (i : Nat),
    (∀ c ∈ cs, c ≠ Call.validateField i) → lastResult cs p i = none
  | [], _, _, _ => rfl
  | c :: cs, p, i, h => by
    have ih := lastResult_eq_none cs (c.run p) i (fun d hd => h d (List.mem_cons_of_mem c hd))
    have hc := h c (List.mem_cons_self c cs)
    cases c with
    | validateField j =>
      have hj : j ≠ i := fun e => hc (by rw [e])
      simp only [lastResult, ih, hj, if_false]
    | clearFieldError j => simp only [lastResult, ih]

theorem lastResult_validateField_cons (cs : List Call) (p : Page) (i : Nat) (f : Field)
    (hf : p.fields[i]? = some f) (hcs : ∀ c ∈ cs, c ≠ Call.validateField i) :
    lastResult (Call.validateField i :: cs) p i = some (validateField f p.elements).1 := by
  simp only [lastResult, lastResult_eq_none cs _ i hcs, hf, if_true, Option.map_some']

theorem getElementById_setTextContent_ne (id id2 t : JSString) (h : id ≠ id2)
    (els : List Element) :
    getElementById (setTextContent id t els) id2 = getElementById els id2 := by
  induction els with
  | nil => rfl
  | cons e es ih =>
    by_cases h1 : e.id = id
    · subst h1
      simp [getElementById, setTextContent, h]
    · by_cases h2 : e.id = id2
      · subst h2
        simp [getElementById, setTextContent, h1]
      · simpa [getElementById, setTextContent, h1, h2] using ih

theorem clearFieldError_elements (f : Field) (els : List Element) :
    (clearFieldError f els).2 = setTextContent (f.name ++ js "Error") [] els := by
  unfold clearFieldError
  cases h : getElementById els (f.name ++ js "Error") with
  | none => simp [setTextContent_of_none _ _ els h]
  | some e => simp [js_empty]

theorem errorMessage_congr (f g : Field) (h : f.core = g.core) :
    errorMessage f = errorMessage g := by
  simp only [Field.core, Prod.mk.injEq] at h
  simp only [errorMessage, h.1, h.2.1, h.2.2]

theorem errorSlot_congr (els : List Element) (f g : Field) (h : f.name = g.name) :
    errorSlot els f = errorSlot els g := by
  unfold errorSlot
  rw [h]

theorem core_validateField (f : Field) (els : List Element) :
    (validateField f els).2.1.core = f.core := by
  rw [validateField_field]
  unfold markField
  cases getElementById els (f.name ++ js "Error") <;> rfl

theorem core_clearFieldError (f : Field) (els : List Element) :
    (clearFieldError f els).1.core = f.core := by
  unfold clearFieldError
  cases getElementById els (f.name ++ js "Error") <;> rfl

/-- No call changes the name, the value or the required flag of a control. -/
theorem coreAt_run (c : Call) (p : Page) (j : Nat) : coreAt (c.run p) j = coreAt p j := by
  cases c with
  | validateField i =>
    simp only [Call.run, blurListener, coreAt]
    cases h : p.fields[i]? with
    | none => rfl
    | some f =>
      simp only [List.getElem?_set]
      by_cases hij : i = j
      · subst hij
        have hlt : i < p.fields.length := (List.getElem?_eq_some.mp h).1
        simp [hlt, h, core_validateField]
      · simp [hij]
  | clearFieldError i =>
    simp only [Call.run, inputListener, coreAt]
    cases h : p.fields[i]? with
    | none => rfl
    | some f =>
      simp only [List.getElem?_set]
      by_cases hij : i = j
      · subst hij
        have hlt : i < p.fields.length := (List.getElem?_eq_some.mp h).1
        simp [hlt, h, core_clearFieldError]
      · simp [hij]

theorem coreAt_runCalls : ∀ (cs : List Call) (p : Page) (j : Nat),
    coreAt (runCalls cs p) j = coreAt p j
  | [], _, _ => rfl
  | c :: cs, p, j => by rw [runCalls, coreAt_runCalls cs, coreAt_run]

theorem nameAt_eq_coreAt (p : Page) (j : Nat) : nameAt p j = (coreAt p j).map Prod.fst := by
  unfold nameAt coreAt
  cases p.fields[j]? <;> rfl

theorem nameAt_runCalls (cs : List Call) (p : Page) (j : Nat) :
    nameAt (runCalls cs p) j = nameAt p j := by
  rw [nameAt_eq_coreAt, nameAt_eq_coreAt, coreAt_runCalls]

/-- The elements after a call: at most one write, into the error element of the
control the call is made on. -/
theorem elements_run (c : Call) (p : Page) :
    (c.run p).elements = p.elements ∨
    ∃ g t, p.fields[c.position]? = some g ∧
      (c.run p).elements = setTextContent (g.name ++ js "Error") t p.elements := by
  cases c with
  | validateField i =>
    simp only [Call.run, blurListener, Call.position]
    cases h : p.fields[i]? with
    | none => exact Or.inl rfl
    | some f => exact Or.inr ⟨f, errorMessage f, rfl, validateField_elements f p.elements⟩
  | clearFieldError i =>
    simp only [Call.run, inputListener, Call.position]
    cases h : p.fields[i]? with
    | none => exact Or.inl rfl
    | some f => exact Or.inr ⟨f, [], rfl, clearFieldError_elements f p.elements⟩

theorem errorSlot_isSome_run (c : Call) (p : Page) (f : Field) :
    (errorSlot (c.run p).elements f).isSome = (errorSlot p.elements f).isSome := by
  rcases elements_run c p with h | ⟨g, t, _, h⟩
  · rw [h]
  · rw [h]
    simp only [errorSlot, Option.isSome_map']
    exact getElementById_setTextContent_isSome _ _ _ _

theorem errorSlot_isSome_runCalls : ∀ (cs : List Call) (p : Page) (f : Field),
    (errorSlot (runCalls cs p).elements f).isSome = (errorSlot p.elements f).isSome
  | [], _, _ => rfl
  | c :: cs, p, f => by rw [runCalls, errorSlot_isSome_runCalls cs, errorSlot_isSome_run]

/-- A call on a control of another name leaves the error slot of a field alone. -/
theorem errorSlot_run_of_ne (c : Call) (p : Page) (f : Field)
    (h : nameAt p c.position ≠ some f.name) :
    errorSlot (c.run p).elements f = errorSlot p.elements f := by
  rcases elements_run c p with he | ⟨g, t, hg, he⟩
  · rw [he]
  · rw [he]
    have hne : g.name ++ js "Error" ≠ f.name ++ js "Error" := by
      intro e
      apply h
      simp only [nameAt, hg, Option.map_some']
      rw [List.append_cancel_right e]
    unfold errorSlot
    rw [getElementById_setTextContent_ne _ _ _ hne]

theorem errorSlot_runCalls_of_ne (f : Field) : ∀ (cs : List Call) (p : Page),
    (∀ c ∈ cs, nameAt p c.position ≠ some f.name) →
      errorSlot (runCalls cs p).elements f = errorSlot p.elements f
  | [], _, _ => rfl
  | c :: cs, p, h => by
    rw [runCalls, errorSlot_runCalls_of_ne f cs (c.run p), errorSlot_run_of_ne c p f
      (h c (List.mem_cons_self c cs))]
    intro d hd
    have hn : nameAt (c.run p) d.position = nameAt p d.position := nameAt_runCalls [c] p _
    rw [hn]
    exact h d (List.mem_cons_of_mem c hd)

/-- The loop of the form check is the sequence of `validateField` calls on the
controls in document order. -/
theorem runCalls_range_eq_validateEach (p : Page) :
    ∀ (rest done : List Field) (els : List Element) (b : Bool),
      runCalls ((List.range' done.length rest.length).map Call.validateField)
          { p with fields := done ++ rest, elements := els } =
        { p with fields := done ++ (validateEach rest b els).2.1,
                 elements := (validateEach rest b els).2.2 }
  | [], done, els, b => by simp [runCalls, validateEach]
  | f :: rest, done, els, b => by
    have hget : (done ++ f :: rest)[done.length]? = some f := by
      rw [List.getElem?_append_right (Nat.le_refl _)]
      simp
    have hset : (done ++ f :: rest).set done.length (validateField f els).2.1 =
        (done ++ [(validateField f els).2.1]) ++ rest := by simp
    have hlen : (done ++ [(validateField f els).2.1]).length = done.length + 1 := by simp
    have ih := runCalls_range_eq_validateEach p rest (done ++ [(validateField f els).2.1])
      (validateField f els).2.2 (if (validateField f els).1 = false then false else b)
    rw [hlen] at ih
    simp only [List.length_cons, List.range'_succ, List.map_cons, runCalls, Call.run,
      blurListener, hget, hset, validateEach]
    rw [ih]
    simp

theorem validateFormBeforeSubmit_eq_runCalls (p : Page) :
    (validateFormBeforeSubmit p).2 =
      runCalls ((List.range p.fields.length).map Call.validateField) p := by
  have h := runCalls_range_eq_validateEach p p.fields [] p.elements true
  simp only [List.length_nil, List.nil_append] at h
  rw [List.range_eq_range', h]
  rfl

/-- C6 as stated fails: after a failed validation of a field, `clearFieldError`
empties its error slot although the most recent validation returned false. -/
theorem cleared_slot_after_failed_validation :
    emptyNamePage.fields[0]? = some (mkField "name" "" true) ∧
    lastResult [Call.validateField 0, Call.clearFieldError 0] emptyNamePage 0 = some false ∧
    errorSlot (runCalls [Call.validateField 0, Call.clearFieldError 0] emptyNamePage).elements
      (mkField "name" "" true) = some [] := by
  decide

/-- C6 amended: after any sequence of `validateField` and `clearFieldError` calls
on a form, for every field that has an error element, that has been validated
at least once, and whose most recent `validateField` call is followed by no
call on a control of the same name (no `clearFieldError` on the field and
no call on another control that shares its error element), the error slot is
non-empty exactly when that most recent `validateField` call returned false;
the slot then holds the error message of the field. -/
theorem errorSlot_nonempty_iff_last_failed (pre post : List Call) (p : Page) (i : Nat)
    (f : Field) (hf : p.fields[i]? = some f)
    (hslot : (errorSlot p.elements f).isSome = true)
    (hpost : ∀ c ∈ post, nameAt p c.position ≠ some f.name) :
    ((∃ t, errorSlot (runCalls (pre ++ Call.validateField i :: post) p).elements f = some t ∧
        t ≠ []) ↔
      lastResult (pre ++ Call.validateField i :: post) p i = some false) ∧
    errorSlot (runCalls (pre ++ Call.validateField i :: post) p).elements f =
      some (errorMessage f) ∧
    lastResult (pre ++ Call.validateField i :: post) p i = some (validateField f p.elements).1 := by
  have hcore : coreAt (runCalls pre p) i = some f.core := by
    rw [coreAt_runCalls]
    simp only [coreAt, hf, Option.map_some']
  obtain ⟨g, hg, hgf⟩ : ∃ g, (runCalls pre p).fields[i]? = some g ∧ g.core = f.core := by
    simpa [coreAt] using hcore
  have hname : g.name = f.name := congrArg Prod.fst hgf
  have hmsg : errorMessage g = errorMessage f := errorMessage_congr g f hgf
  have hnot : ∀ c ∈ post, c ≠ Call.validateField i := by
    intro c hc e
    apply hpost c hc
    rw [e]
    simp only [Call.position, nameAt, hf, Option.map_some']
  have hlast : lastResult (pre ++ Call.validateField i :: post) p i =
      some (validateField f p.elements).1 := by
    rw [lastResult_append_of_some pre _ p i _
      (lastResult_validateField_cons post (runCalls pre p) i g hg hnot)]
    simp [validateField_fst, hmsg]
  have hsl : errorSlot (runCalls (pre ++ Call.validateField i :: post) p).elements f =
      some (errorMessage f) := by
    rw [runCalls_append, runCalls]
    rw [errorSlot_runCalls_of_ne f post]
    · simp only [Call.run, blurListener, hg]
      rw [errorSlot_congr _ f g hname.symm, errorSlot_validateField, hmsg,
        errorSlot_congr _ g f hname]
      have h1 := errorSlot_isSome_runCalls pre p f
      rw [hslot] at h1
      obtain ⟨t, ht⟩ := Option.isSome_iff_exists.mp h1
      simp [ht]
    · intro c hc
      have hn : nameAt (runCalls (pre ++ [Call.validateField i]) p) c.position =
          nameAt p c.position := nameAt_runCalls _ p _
      rw [runCalls_append] at hn
      rw [show Call.run (runCalls pre p) (Call.validateField i) =
        runCalls [Call.validateField i] (runCalls pre p) from rfl, hn]
      exact hpost c hc
  refine ⟨?_, hsl, hlast⟩
  rw [hsl, hlast]
  simp [validateField_fst]

/-- Witness of the amended C6: the field `name` of `twoFieldPage`, validated
after a clear and followed by calls on the control `email`. -/
theorem errorSlot_nonempty_iff_last_failed_witness :
    twoFieldPage.fields[0]? = some (mkField "name" "" true) ∧
    ((∃ t, errorSlot
        (runCalls ([Call.clearFieldError 0] ++
          Call.validateField 0 :: [Call.validateField 1, Call.clearFieldError 1])
          twoFieldPage).elements (mkField "name" "" true) = some t ∧ t ≠ []) ↔
      lastResult ([Call.clearFieldError 0] ++
        Call.validateField 0 :: [Call.validateField 1, Call.clearFieldError 1])
        twoFieldPage 0 = some false) :=
  ⟨by decide,
    (errorSlot_nonempty_iff_last_failed [Call.clearFieldError 0]
      [Call.validateField 1, Call.clearFieldError 1] twoFieldPage 0
      (mkField "name" "" true) (by decide) (by decide) (by decide)).1⟩

/-- C7: the submit listener of the contact form calls `preventDefault` exactly
when `validateFormBeforeSubmit` returns false, and leaves the event alone
exactly when every field validates. -/
theorem submitListener_prevents_iff_invalid (p : Page) :
    ((submitListener p { defaultPrevented := false }).2.defaultPrevented = true ↔
      (validateFormBeforeSubmit p).1 = false) ∧
    ((submitListener p { defaultPrevented := false }).2.defaultPrevented = false ↔
      ∀ f ∈ p.fields, ∀ els : List Element, (validateField f els).1 = true) := by
  rw [← validateFormBeforeSubmit_fst_iff]
  unfold submitListener
  cases h : (validateFormBeforeSubmit p).1 <;> simp [h, Event.preventDefault]

/-- C10: a second `validateFormBeforeSubmit` right after a first returns the same
boolean and leaves the page, every error slot included, as the first left it. -/
theorem validateFormBeforeSubmit_idempotent (p : Page) :
    validateFormBeforeSubmit (validateFormBeforeSubmit p).2 = validateFormBeforeSubmit p := by
  have hfields : (p.fields.map (markField p.elements)).map
      (markField (applyWrites (p.fields.map slotWrite) p.elements)) =
      p.fields.map (markField p.elements) := by
    rw [List.map_map]
    refine List.map_congr_left (fun f _ => ?_)
    simp only [Function.comp]
    rw [markField_congr (markField p.elements f) _ p.elements
      (getElementById_applyWrites_isSome _ _ _), markField_markField]
  have hwrites : (p.fields.map (markField p.elements)).map slotWrite = p.fields.map slotWrite := by
    rw [List.map_map]
    exact List.map_congr_left (fun f _ => slotWrite_markField p.elements f)
  have hall : (p.fields.map (markField p.elements)).all (fun f => decide (errorMessage f = []))
      = p.fields.all (fun f => decide (errorMessage f = [])) := by
    rw [List.all_map]
    congr 1
    funext f
    simp [errorMessage_markField]
  simp only [validateFormBeforeSubmit, validateEach_eq, hfields, hwrites, hall, applyWrites_idem]

/-! ## Claims about the simulated submission -/

/-- C8 as stated fails: after the whole lifecycle the control of `presetPage`
holds its default value `general`, not an empty value. -/
theorem reset_restores_default_value :
    presetPage.timers = [] ∧
    (submitForm presetPage).map (fun q => (fireTimer (fireTimer q)).fields.map Field.value) =
      some [js "general"] ∧
    js "general" ≠ [] := by
  decide

/-- C8 amended: from a page with a submit control, a success notice and no
pending timer, `submitForm` disables the control and labels it
`Submitting...`; the first timer hides the form and shows the notice; the
second timer shows the form again with every control reset to its default
value, hides the notice, and enables the control with the label it had
before `submitForm`; no timer is left pending. -/
theorem submitForm_lifecycle (p : Page) (b : Button) (d : JSString)
    (hbtn : p.submitBtn = some b) (hsucc : p.formSuccess = some d) (hidle : p.timers = []) :
    ∃ q, submitForm p = some q ∧
      q.submitBtn =
        some { textContent := js "Submitting...", disabled := true, loading := true } ∧
      q.fields = p.fields ∧ q.formDisplay = p.formDisplay ∧ q.formSuccess = p.formSuccess ∧
      (fireTimer q).formDisplay = js "none" ∧
      (fireTimer q).formSuccess = some (js "block") ∧
      (fireTimer q).submitBtn = q.submitBtn ∧
      (fireTimer q).now = p.now + 2000 ∧
      fireTimer (fireTimer q) =
        { p with
          fields := resetFields p.fields
          formDisplay := js "block"
          formSuccess := some (js "none")
          submitBtn := some { textContent := b.textContent, disabled := false, loading := false }
          now := p.now + 7000
          timers := [] } := by
  refine ⟨{ p with
      submitBtn := some { textContent := js "Submitting...", disabled := true, loading := true }
      timers := p.timers ++ [{ due := p.now + 2000, callback := .showSuccess b.textContent }] },
    by simp only [submitForm, hbtn], ?_⟩
  simp [fireTimer, nextTimer, runCallback, hidle, hsucc, resetFields, Nat.add_assoc]

/-- Witness of the amended C8 on the filled-in form. -/
theorem submitForm_lifecycle_witness :
    ∃ q, submitForm janePage = some q ∧
      q.submitBtn =
        some { textContent := js "Submitting...", disabled := true, loading := true } ∧
      q.fields = janePage.fields ∧ q.formDisplay = janePage.formDisplay ∧
      q.formSuccess = janePage.formSuccess ∧
      (fireTimer q).formDisplay = js "none" ∧
      (fireTimer q).formSuccess = some (js "block") ∧
      (fireTimer q).submitBtn = q.submitBtn ∧
      (fireTimer q).now = janePage.now + 2000 ∧
      fireTimer (fireTimer q) =
        { janePage with
          fields := resetFields janePage.fields
          formDisplay := js "block"
          formSuccess := some (js "none")
          submitBtn :=
            some { textContent := js "Send Message", disabled := false, loading := false }
          now := janePage.now + 7000
          timers := [] } :=
  submitForm_lifecycle janePage
    { textContent := js "Send Message", disabled := false, loading := false } (js "none")
    rfl rfl rfl

/-- C9 as stated fails: every field of `janePage` validates, and after the
submit listener the submit control is still enabled with its label and no
timer is pending. -/
theorem valid_submit_leaves_control :
    (validateFormBeforeSubmit janePage).1 = true ∧
    (submitListener janePage { defaultPrevented := false }).1.submitBtn =
      some { textContent := js "Send Message", disabled := false, loading := false } ∧
    (submitListener janePage { defaultPrevented := false }).1.timers = [] := by
  decide

/-- C9 amended: when every field validates, the submit listener leaves the
submit control and the timers as they were and does not touch the event, so
the native submission continues. On every form, valid or not, none of the
listeners of the contact form (submit, blur, input) changes the submit
control, the timers, or the display of the form and of the success notice.
The step from Idle to Submitting is taken by `handleFormSubmission` alone: on a
form in which every field validates and which has a submit control it disables
the control, labels it `Submitting...` and starts the first timer, and on a form
with an invalid field it does what `validateFormBeforeSubmit` does. -/
theorem valid_submit_does_not_start_lifecycle (p : Page) (e : Event)
    (hvalid : (validateFormBeforeSubmit p).1 = true) :
    (submitListener p e).1.submitBtn = p.submitBtn ∧
    (submitListener p e).1.timers = p.timers ∧
    (submitListener p e).2 = e ∧
    (∀ (q : Page) (d : Event),
      (submitListener q d).1.submitBtn = q.submitBtn ∧
      (submitListener q d).1.timers = q.timers ∧
      (submitListener q d).1.formDisplay = q.formDisplay ∧
      (submitListener q d).1.formSuccess = q.formSuccess) ∧
    (∀ (q : Page) (i : Nat),
      (blurListener q i).submitBtn = q.submitBtn ∧
      (blurListener q i).timers = q.timers ∧
      (blurListener q i).formDisplay = q.formDisplay ∧
      (blurListener q i).formSuccess = q.formSuccess) ∧
    (∀ (q : Page) (i : Nat),
      (inputListener q i).submitBtn = q.submitBtn ∧
      (inputListener q i).timers = q.timers ∧
      (inputListener q i).formDisplay = q.formDisplay ∧
      (inputListener q i).formSuccess = q.formSuccess) ∧
    (∀ q : Page, (validateFormBeforeSubmit q).1 = false →
      handleFormSubmission q = some (validateFormBeforeSubmit q).2) ∧
    ∀ b, p.submitBtn = some b →
      ∃ q, handleFormSubmission p = some q ∧
        q.submitBtn =
          some { textContent := js "Submitting...", disabled := true, loading := true } ∧
        q.timers = p.timers ++ [{ due := p.now + 2000, callback := .showSuccess b.textContent }] := by
  have hv : (validateEach p.fields true p.elements).1 = true := hvalid
  refine ⟨?_, ?_, ?_, ?_, ?_, ?_, ?_, ?_⟩
  · simp [submitListener, validateFormBeforeSubmit, hv]
  · simp [submitListener, validateFormBeforeSubmit, hv]
  · simp [submitListener, hvalid]
  · intro q d
    simp only [submitListener, validateFormBeforeSubmit]
    split <;> simp
  · intro q i
    unfold blurListener
    cases q.fields[i]? <;> simp
  · intro q i
    unfold inputListener
    cases q.fields[i]? <;> simp
  · intro q hq
    have hq2 : (validateEach q.fields true q.elements).1 = false := hq
    simp [handleFormSubmission, validateFormBeforeSubmit, hq2]
  · intro b hb
    simp [handleFormSubmission, hv, submitForm, hb]

/-- Witness of the amended C9 on the filled-in form. -/
theorem valid_submit_does_not_start_lifecycle_witness :
    (validateFormBeforeSubmit janePage).1 = true ∧
    (submitListener janePage { defaultPrevented := false }).1.submitBtn = janePage.submitBtn ∧
    (submitListener janePage { defaultPrevented := false }).1.timers = janePage.timers ∧
    (submitListener janePage { defaultPrevented := false }).2 = { defaultPrevented := false } :=
  ⟨by decide,
    (valid_submit_does_not_start_lifecycle janePage { defaultPrevented := false }
      (by decide)).1,
    (valid_submit_does_not_start_lifecycle janePage { defaultPrevented := false }
      (by decide)).2.1,
    (valid_submit_does_not_start_lifecycle janePage { defaultPrevented := false }
      (by decide)).2.2.1⟩

end WebsiteApp
